import Mathlib

/-
Verification of the experiment-sweep orchestrator `src/run.py` of the
delta-interpolator repository.

The orchestrator reads an experiment description (a base-config name plus a
parameter mapping), normalizes scalar parameter values to singleton lists
(run.py lines 115-117), expands the mapping into a parameter grid
(line 119, `sklearn.model_selection.ParameterGrid`), renders each grid point
as a list of "key=value" override strings followed by the user-supplied
global overrides (lines 120-127), composes each override list with the base
configuration (line 129, `hydra.compose`), resolves the latest checkpoint
(line 131, `set_latest_checkpoint`) and finally drives one training run per
grid point (line 133, `run`).

The development below shallowly embeds these pieces:
- parameter normalization, grid expansion and override rendering are
  translated from `main` (run.py lines 106-133) and from the iteration
  semantics of `sklearn.model_selection.ParameterGrid` (sorted parameter
  names, itertools.product order: last sorted key varies fastest, i.e.
  lexicographic order on the tuples of value-list indices);
- the override-application semantics of `hydra.compose` (an external
  collaborator of the repository) is modelled from the spec: overrides are
  applied strictly in list order to an association-list configuration,
  later entries shadowing earlier ones, and an override whose key is absent
  from the template fails;
- the per-run lifecycle of `run` (run.py lines 30-103) is embedded as the
  ordered list of lifecycle steps the function executes;
- `set_latest_checkpoint` (imported from `src.utils.checkpointing`, whose
  source is not part of the repository snapshot) and the
  resolve-and-freeze behaviour of OmegaConf are modelled from the spec.
-/

namespace DeltaInterp

/-! ## Parameter values and scalar normalization (run.py lines 115-117) -/

/-- A value in the `parameters` mapping of the experiment description:
either a bare scalar or a list of scalars.  Scalars are abstracted as the
strings `str(v)` produces for them, which is all `main` ever uses. -/
inductive PVal where
  | scalar : String → PVal
  | vlist : List String → PVal
deriving DecidableEq

/-- Scalar normalization, run.py lines 115-117: a bare scalar becomes a
singleton list, a list is kept as is. -/
def normalizeVal : PVal → List String
  | .scalar s => [s]
  | .vlist l => l

/-- Normalize every value of the parameter mapping (the mapping is embedded
as an association list in insertion order, like a Python dict). -/
def normalizeParams (ps : List (String × PVal)) : List (String × List String) :=
  ps.map (fun kv => (kv.1, normalizeVal kv.2))

/-! ## Grid expansion (run.py line 119, sklearn ParameterGrid) -/

/-- Insert an entry into a key-sorted association list. -/
def insertByKey (x : String × List String) :
    List (String × List String) → List (String × List String)
  | [] => [x]
  | y :: ys => if x.1 < y.1 then x :: y :: ys else y :: insertByKey x ys

/-- Sort an association list by key, as `sorted(p.items())` does inside
`ParameterGrid.__iter__`. -/
def sortByKey : List (String × List String) → List (String × List String)
  | [] => []
  | x :: xs => insertByKey x (sortByKey xs)

/-- Cartesian product of a list of lists, in `itertools.product` order:
the first list varies slowest, the last list varies fastest. -/
def cartProd : List (List α) → List (List α)
  | [] => [[]]
  | l :: ls => l.flatMap (fun x => (cartProd ls).map (x :: ·))

/-- The sorted, normalized items of the parameter mapping, as iterated by
`ParameterGrid.__iter__`. -/
def gridItems (ps : List (String × PVal)) : List (String × List String) :=
  sortByKey (normalizeParams ps)

/-- The value lists of the sorted items. -/
def gridVals (ps : List (String × PVal)) : List (List String) :=
  (gridItems ps).map (fun e => e.2)

/-- Grid expansion: every point of the Cartesian product of the value
lists, paired with its parameter name (run.py line 119 / line 120). -/
def expandGrid (ps : List (String × PVal)) : List (List (String × String)) :=
  (cartProd (gridVals ps)).map (fun vals => ((gridItems ps).map (fun e => e.1)).zip vals)

/-- Render one grid assignment as an override string,
run.py line 124: `k + "=" + str(param_set[k])`. -/
def renderOverride (kv : String × String) : String := kv.1 ++ "=" ++ kv.2

/-- The grid-derived override strings of one grid point,
run.py lines 121-124. -/
def buildParamOverrides (paramSet : List (String × String)) : List String :=
  paramSet.map renderOverride

/-- The ordered sequence of grid-derived override lists, one per grid
point, as produced by the loop of run.py lines 120-124. -/
def overrideSets (ps : List (String × PVal)) : List (List String) :=
  (expandGrid ps).map buildParamOverrides

/-- The full override list passed to `compose` for one grid point,
run.py line 127: grid-derived overrides first, then the global
overrides (`param_overrides += overrides`). -/
def composedOverrides (paramOvs globals : List String) : List String :=
  paramOvs ++ globals

/-! ## Override application (hydra `compose`), modelled from the spec -/

/-- Split a list of characters at the first occurrence of a separator
character; `none` when the separator does not occur. -/
def splitAtChar (sep : Char) : List Char → Option (List Char × List Char)
  | [] => none
  | c :: cs =>
    if c = sep then some ([], cs)
    else (splitAtChar sep cs).map (fun p => (c :: p.1, p.2))

/-- Modelled from the spec: how `hydra.compose` (an external collaborator)
parses one override string `"key=value"` — the key is everything before
the first `=`, the value everything after it. -/
def parseOv (s : String) : String × String :=
  match splitAtChar '=' s.data with
  | none => (s, "")
  | some p => (String.mk p.1, String.mk p.2)

/-- Modelled from the spec: setting a key in a configuration (embedded as
an association list).  An override whose key is absent from the template
fails (`ConfigResolutionError`), per spec section 4.2. -/
def setKey : List (String × String) → String → String → Option (List (String × String))
  | [], _, _ => none
  | e :: rest, k, v =>
    if e.1 = k then some ((k, v) :: rest)
    else (setKey rest k v).map (e :: ·)

/-- Apply one override string to a configuration. -/
def applyOv (cfg : List (String × String)) (s : String) :
    Option (List (String × String)) :=
  setKey cfg (parseOv s).1 (parseOv s).2

/-- Modelled from the spec: `hydra.compose` applies the override strings
strictly in list order to the base configuration, so later entries shadow
earlier ones on key collision (spec section 4.2); failure of any single
override fails the whole composition. -/
def composeCfg : List (String × String) → List String → Option (List (String × String))
  | base, [] => some base
  | base, s :: rest =>
    match applyOv base s with
    | none => none
    | some b2 => composeCfg b2 rest

/-- Look a key up in a string-keyed association list (a configuration, or
the metrics mapping returned by `model.evaluate()`). -/
def getVal (k : String) : List (String × β) → Option β
  | [] => none
  | e :: rest => if e.1 = k then some e.2 else getVal k rest

/-- The value of the last override string in the list whose key is `k`,
if any. -/
def findLast (k : String) : List String → Option String
  | [] => none
  | s :: rest =>
    match findLast k rest with
    | some v => some v
    | none => if (parseOv s).1 = k then some (parseOv s).2 else none

/-! ## Lemmas: override application and precedence -/

theorem getVal_setKey (cfg : List (String × String)) (k v : String) :
    ∀ cfg2, setKey cfg k v = some cfg2 →
      ∀ k2, getVal k2 cfg2 = if k = k2 then some v else getVal k2 cfg := by
  induction cfg with
  | nil => intro cfg2 h; simp [setKey] at h
  | cons e rest ih =>
    intro cfg2 h k2
    by_cases he : e.1 = k
    · rw [setKey, if_pos he, Option.some_inj] at h
      subst h
      by_cases hk : k = k2
      · simp [getVal, hk]
      · have hek2 : ¬ e.1 = k2 := fun hh => hk (he.symm.trans hh)
        simp [getVal, hk, hek2]
    · rw [setKey, if_neg he] at h
      cases hr : setKey rest k v with
      | none => rw [hr] at h; simp at h
      | some r2 =>
        rw [hr] at h
        simp at h
        subst h
        have ihh := ih r2 hr k2
        by_cases he2 : e.1 = k2
        · have hk : ¬ k = k2 := fun hh => he (he2.trans hh.symm)
          simp [getVal, he2, hk]
        · simp [getVal, he2, ihh]

theorem composeCfg_getVal (ovs : List String) :
    ∀ base cfg2, composeCfg base ovs = some cfg2 →
      ∀ k, getVal k cfg2 = (findLast k ovs).elim (getVal k base) some := by
  induction ovs with
  | nil =>
    intro base cfg2 h k
    rw [composeCfg, Option.some_inj] at h
    subst h
    simp [findLast]
  | cons s rest ih =>
    intro base cfg2 h k
    rw [composeCfg] at h
    cases ha : applyOv base s with
    | none => rw [ha] at h; exact Option.noConfusion h
    | some b2 =>
      rw [ha] at h
      have ihh := ih b2 cfg2 h k
      have hb2 := getVal_setKey base (parseOv s).1 (parseOv s).2 b2 ha k
      rw [ihh, hb2]
      simp only [findLast]
      cases findLast k rest with
      | some v => simp
      | none => by_cases hk : (parseOv s).1 = k <;> simp [hk]

theorem findLast_append (k : String) (a b : List String) :
    findLast k (a ++ b) = (findLast k b).elim (findLast k a) some := by
  induction a with
  | nil => cases hb : findLast k b <;> simp [findLast, hb]
  | cons s a2 ih =>
    simp only [List.cons_append, findLast]
    rw [List.append_eq, ih]
    cases hb : findLast k b with
    | some v => simp
    | none => cases ha : findLast k a2 <;> simp [findLast, ha]

/-! ## Claim theorems: override composition -/

/-- C1: for every parameter mapping and every list of global overrides, the
override list composed for a grid point is the grid-derived "key=value"
strings followed by the global overrides (run.py lines 120-127), and since
composition applies overrides in list order with later entries shadowing
earlier ones, any key that occurs among the global overrides resolves to
the (last) global override's value for every grid point, whatever value
the grid assigned to it. -/
theorem C1_global_override_precedence
    (base grid : List (String × String)) (globals : List String)
    (k v : String) (cfg2 : List (String × String))
    (hg : findLast k globals = some v)
    (hc : composeCfg base (composedOverrides (buildParamOverrides grid) globals)
            = some cfg2) :
    composedOverrides (buildParamOverrides grid) globals
        = buildParamOverrides grid ++ globals
      ∧ getVal k cfg2 = some v := by
  refine ⟨rfl, ?_⟩
  have h := composeCfg_getVal _ _ _ hc k
  rw [composedOverrides, findLast_append, hg] at h
  simpa using h

/-- Witness for C1 at a concrete input: base config with keys `model.lr`
and `seed`, one grid point setting `model.lr=0.01`, global override
`model.lr=0.1`; the resolved config holds the global value `0.1`. -/
theorem C1_global_override_precedence_witness :
    composedOverrides (buildParamOverrides [("model.lr", "0.01")]) ["model.lr=0.1"]
        = buildParamOverrides [("model.lr", "0.01")] ++ ["model.lr=0.1"]
      ∧ getVal "model.lr" [("model.lr", "0.1"), ("seed", "7")] = some "0.1" :=
  C1_global_override_precedence
    [("model.lr", "0.001"), ("seed", "7")] [("model.lr", "0.01")] ["model.lr=0.1"]
    "model.lr" "0.1" [("model.lr", "0.1"), ("seed", "7")]
    (by decide) (by decide)

/-- C5: the empty parameter mapping expands to exactly one grid point, whose
override set is the empty list, so the single run is composed from the base
configuration plus only the global overrides (run.py lines 115-127). -/
theorem C5_empty_mapping_single_run (globals : List String) :
    expandGrid [] = [[]]
      ∧ overrideSets [] = [[]]
      ∧ composedOverrides (buildParamOverrides []) globals = globals :=
  ⟨rfl, rfl, rfl⟩

/-- Witness for C5 at a concrete list of global overrides. -/
theorem C5_empty_mapping_single_run_witness :
    expandGrid [] = [[]]
      ∧ overrideSets [] = [[]]
      ∧ composedOverrides (buildParamOverrides []) ["trainer.gpus=0"]
          = ["trainer.gpus=0"] :=
  C5_empty_mapping_single_run ["trainer.gpus=0"]

/-! ## Per-run lifecycle of `run` (run.py lines 30-103)

The body of `run` is a straight-line sequence of statements; it is embedded
as the ordered list of lifecycle steps it executes.  The two conditionals
(the CUDA banner, lines 38-41, and the export callback, lines 66-67) are
the only branches, and neither raises or returns early. -/

/-- One lifecycle step of `run`, in the order the statements appear. -/
inductive Step where
  | resolveConfig      -- lines 32-34: to_container(resolve)/create/set_struct
  | logConfig          -- line 36
  | cudaBanner         -- lines 38-41: informational banner only
  | pipelineBuild      -- line 47: instantiate(cfg.dataset)
  | prepareData        -- line 48: dm.prepare_data()
  | modelBuild         -- line 51: ModelFactory.instantiate
  | loggingSetup       -- lines 54-59: TensorBoardLoggerWithMetrics
  | checkpointCallback -- lines 63-65
  | exportCallback     -- lines 66-67, only when export_period > 0
  | lrMonitorCallback  -- line 68
  | seedPython         -- line 73: random.seed(rnd_seed)
  | seedNumpy          -- line 74: np.random.seed(rnd_seed)
  | seedTorch          -- line 75: torch.manual_seed(rnd_seed)
  | logSeed            -- line 76
  | snapshotGitDiff    -- lines 78-86: git diff saved next to the logs
  | trainerFit         -- lines 89-90: pl.Trainer(...).fit
  | exportModel        -- line 93: model.export(... model.onnx)
  | evaluateModel      -- line 96: model.evaluate()
  | reportMetrics      -- lines 98-103: benchmark table
deriving DecidableEq

/-- The ordered list of lifecycle steps `run` executes, given whether CUDA
is available (lines 38-41) and whether `cfg.logging.export_period > 0`
(lines 66-67). -/
def runTrace (cudaAvailable exportPeriodPos : Bool) : List Step :=
  [Step.resolveConfig, Step.logConfig]
    ++ (if cudaAvailable then [] else [Step.cudaBanner])
    ++ [Step.pipelineBuild, Step.prepareData, Step.modelBuild,
        Step.loggingSetup, Step.checkpointCallback]
    ++ (if exportPeriodPos then [Step.exportCallback] else [])
    ++ [Step.lrMonitorCallback, Step.seedPython, Step.seedNumpy,
        Step.seedTorch, Step.logSeed, Step.snapshotGitDiff, Step.trainerFit,
        Step.exportModel, Step.evaluateModel, Step.reportMetrics]

/-- Position of the first occurrence of a step in a trace. -/
def posOf (x : Step) : List Step → Nat
  | [] => 0
  | y :: ys => if y = x then 0 else posOf x ys + 1

/-- The three seed assignments of run.py lines 72-75: the single integer
`rnd_seed = cfg.seed` is passed to `random.seed`, `np.random.seed` and
`torch.manual_seed`. -/
def seedAssignments (seed : Int) : List (String × Int) :=
  [("random.seed", seed), ("np.random.seed", seed), ("torch.manual_seed", seed)]

/-- C3 counterexample: in the trace of `run`, seeding is NOT the first
lifecycle step and does not precede the data-pipeline build — the pipeline
is instantiated (line 47) well before the RNGs are seeded (lines 73-75). -/
theorem C3_counterexample_seed_not_first :
    ¬ posOf Step.seedPython (runTrace true true)
        < posOf Step.pipelineBuild (runTrace true true) := by
  decide

/-- C3 amended: in every run, the single integer seed `cfg.seed` is applied
to all three random-number sources (general-purpose, numeric-array and
training-framework RNGs), but only after the data pipeline, the model and
the logging are constructed, and immediately before the reproducibility
snapshot and trainer instantiation — as the source comment on line 71 says,
"just before instantiating the trainer". -/
theorem C3_seeding_after_pipeline_before_training (c e : Bool) (s : Int) :
    posOf Step.pipelineBuild (runTrace c e) < posOf Step.seedPython (runTrace c e)
      ∧ posOf Step.modelBuild (runTrace c e) < posOf Step.seedPython (runTrace c e)
      ∧ posOf Step.loggingSetup (runTrace c e) < posOf Step.seedPython (runTrace c e)
      ∧ posOf Step.seedPython (runTrace c e) < posOf Step.seedNumpy (runTrace c e)
      ∧ posOf Step.seedNumpy (runTrace c e) < posOf Step.seedTorch (runTrace c e)
      ∧ posOf Step.seedTorch (runTrace c e) < posOf Step.snapshotGitDiff (runTrace c e)
      ∧ posOf Step.snapshotGitDiff (runTrace c e) < posOf Step.trainerFit (runTrace c e)
      ∧ ∀ kv ∈ seedAssignments s, kv.2 = s := by
  have hkv : ∀ kv ∈ seedAssignments s, kv.2 = s := by
    intro kv h
    simp only [seedAssignments, List.mem_cons, List.not_mem_nil, or_false] at h
    rcases h with rfl | rfl | rfl <;> rfl
  cases c <;> cases e <;>
    exact ⟨by decide, by decide, by decide, by decide, by decide, by decide,
           by decide, hkv⟩

/-- Witness for the amended C3 at concrete flags and seed. -/
theorem C3_seeding_after_pipeline_before_training_witness :
    posOf Step.pipelineBuild (runTrace true true)
        < posOf Step.seedPython (runTrace true true)
      ∧ posOf Step.modelBuild (runTrace true true)
        < posOf Step.seedPython (runTrace true true)
      ∧ posOf Step.loggingSetup (runTrace true true)
        < posOf Step.seedPython (runTrace true true)
      ∧ posOf Step.seedPython (runTrace true true)
        < posOf Step.seedNumpy (runTrace true true)
      ∧ posOf Step.seedNumpy (runTrace true true)
        < posOf Step.seedTorch (runTrace true true)
      ∧ posOf Step.seedTorch (runTrace true true)
        < posOf Step.snapshotGitDiff (runTrace true true)
      ∧ posOf Step.snapshotGitDiff (runTrace true true)
        < posOf Step.trainerFit (runTrace true true)
      ∧ ∀ kv ∈ seedAssignments 42, kv.2 = 42 :=
  C3_seeding_after_pipeline_before_training true true 42

/-- C9: CUDA availability is never a precondition of a run.  When CUDA is
unavailable the trace contains the informational banner (lines 38-41) and is
otherwise identical to the CUDA-available trace: erasing the banner yields
exactly the other trace, and no step of `run` is conditional on CUDA
except the banner. -/
theorem C9_cuda_only_banner (e : Bool) :
    (runTrace false e).erase Step.cudaBanner = runTrace true e
      ∧ Step.cudaBanner ∈ runTrace false e
      ∧ Step.cudaBanner ∉ runTrace true e := by
  cases e <;> exact ⟨by decide, by decide, by decide⟩

/-- Witness for C9 with the export callback enabled. -/
theorem C9_cuda_only_banner_witness :
    (runTrace false true).erase Step.cudaBanner = runTrace true true
      ∧ Step.cudaBanner ∈ runTrace false true
      ∧ Step.cudaBanner ∉ runTrace true true :=
  C9_cuda_only_banner true

/-! ## The sweep loop of `main` (run.py lines 119-133)

The loop body composes the configuration, resolves the checkpoint and calls
`run` for each grid point, with no exception handling anywhere in `main`:
a Python exception raised by any iteration propagates out of the loop and
aborts the whole sweep.  The loop is embedded as a function returning the
list of grid points whose iteration was started, together with the first
error, if any. -/

/-- The sweep loop: iterate the grid points in order; each iteration either
completes (`Except.ok`) or raises (`Except.error`), and a raise ends the
loop immediately, as in Python without try/except. -/
def sweepTrace (runOne : α → Except E Unit) : List α → List α × Option E
  | [] => ([], none)
  | p :: ps =>
    match runOne p with
    | .error e => ([p], some e)
    | .ok _ => ((sweepTrace runOne ps).1.cons p, (sweepTrace runOne ps).2)

/-- A per-run step that fails on the first grid point, as a model-factory
failure would. -/
def failFirstRun : Nat → Except String Unit :=
  fun p => if p = 0 then .error "ModelBuildError" else .ok ()

/-- C4 counterexample: with two grid points and a per-run failure at the
first one, the sweep driver never reaches the second grid point and the
error propagates — it does not log the failure and continue, contrary to
the claim. -/
theorem C4_counterexample_failure_not_contained :
    (sweepTrace failFirstRun [0, 1]).1 ≠ [0, 1]
      ∧ sweepTrace failFirstRun [0, 1] = ([0], some "ModelBuildError") := by
  exact ⟨by decide, by decide⟩

/-- C4 amended: a failure of any per-run step (composition, checkpoint
resolution, pipeline build, model build, training, export or evaluation)
at any grid point aborts the whole sweep immediately: every grid point of
the successful prefix ran, the failing grid point is the last one started,
the remaining grid points are never attempted, and the error propagates
out of the loop.  `main` has no exception handling, so no failure is
per-run-contained. -/
theorem C4_first_failure_aborts_sweep (runOne : α → Except E Unit)
    (pre : List α) (p : α) (ps : List α) (e : E)
    (hpre : ∀ q ∈ pre, runOne q = .ok ())
    (h : runOne p = .error e) :
    sweepTrace runOne (pre ++ p :: ps) = (pre ++ [p], some e) := by
  induction pre with
  | nil => simp [sweepTrace, h]
  | cons q pre ih =>
    have hq : runOne q = .ok () := hpre q (List.mem_cons_self _ _)
    simp [sweepTrace, hq, ih (fun r hr => hpre r (List.mem_cons_of_mem _ hr))]

/-- Witness for the amended C4: the run at grid point 1 succeeds, then the
failure at grid point 0 aborts the sweep mid-way, before grid point 2. -/
theorem C4_first_failure_aborts_sweep_witness :
    sweepTrace failFirstRun ([1] ++ 0 :: [2]) = ([1] ++ [0], some "ModelBuildError") :=
  C4_first_failure_aborts_sweep failFirstRun [1] 0 [2] "ModelBuildError"
    (fun q hq => by rw [List.mem_singleton] at hq; subst hq; rfl) rfl

/-! ## Checkpoint resolution (run.py line 131)

`set_latest_checkpoint` is imported from `src.utils.checkpointing`, whose
source file is not part of the repository snapshot; it is modelled from the
spec (section 4.3 CheckpointResolver): list the checkpoint artifacts
matching the run identity (name + version), select the most recently
modified one and write its path into the config's resume-from field,
leaving the field unset when there is no matching artifact. -/

/-- The slice of the composed configuration that checkpoint resolution
touches: the run identity and the resume-from field. -/
structure CkptConfig where
  name : String
  version : String
  resumePath : Option String
deriving DecidableEq

/-- One checkpoint artifact on disk, with its modification marker. -/
structure CkptArtifact where
  runName : String
  runVersion : String
  path : String
  mtime : Nat
deriving DecidableEq

/-- Does an artifact belong to this run's identity? -/
def matchesIdentity (c : CkptConfig) (a : CkptArtifact) : Bool :=
  a.runName == c.name && a.runVersion == c.version

/-- Modelled from the spec: select the matching artifact with the most
recent modification marker, if any. -/
def latestArtifact (fs : List CkptArtifact) (c : CkptConfig) : Option CkptArtifact :=
  (fs.filter (matchesIdentity c)).foldl
    (fun acc a =>
      match acc with
      | none => some a
      | some b => if a.mtime > b.mtime then some a else some b)
    none

/-- Modelled from the spec: `set_latest_checkpoint` (src/utils/checkpointing,
not in the snapshot) writes the most recent matching checkpoint path into
the config's resume-from field; with no matching artifact the field is
left unset. -/
def set_latest_checkpoint (fs : List CkptArtifact) (c : CkptConfig) : CkptConfig :=
  { c with resumePath := (latestArtifact fs c).map (fun a => a.path) }

/-- C7: checkpoint resolution is idempotent — with no new artifacts between
the two calls (the same artifact list `fs`), resolving twice leaves the
same resume path as resolving once, because resolution never changes the
run identity the selection is keyed on. -/
theorem C7_checkpoint_resolution_idempotent (fs : List CkptArtifact) (c : CkptConfig) :
    set_latest_checkpoint fs (set_latest_checkpoint fs c)
      = set_latest_checkpoint fs c := rfl

/-- Witness for C7 on a directory with two artifacts of the matching
identity, checking that resolving twice equals resolving once. -/
theorem C7_checkpoint_resolution_idempotent_witness :
    set_latest_checkpoint
        [⟨"transformer", "v0", "ckpt-epoch3", 3⟩, ⟨"transformer", "v0", "ckpt-epoch7", 7⟩]
        (set_latest_checkpoint
          [⟨"transformer", "v0", "ckpt-epoch3", 3⟩, ⟨"transformer", "v0", "ckpt-epoch7", 7⟩]
          ⟨"transformer", "v0", none⟩)
      = set_latest_checkpoint
          [⟨"transformer", "v0", "ckpt-epoch3", 3⟩, ⟨"transformer", "v0", "ckpt-epoch7", 7⟩]
          ⟨"transformer", "v0", none⟩ :=
  C7_checkpoint_resolution_idempotent
    [⟨"transformer", "v0", "ckpt-epoch3", 3⟩, ⟨"transformer", "v0", "ckpt-epoch7", 7⟩]
    ⟨"transformer", "v0", none⟩

/-! ## Benchmark report (run.py lines 96-103)

After `metrics = model.evaluate()`, the report prints a header row and one
value row.  Each value-row cell is `"{:.Nf}".format(metrics[key])`: a fixed
per-column decimal precision, with a Python `KeyError` raised at the first
missing key (the format arguments are evaluated left to right) before the
value row is printed.  Metric values are embedded as rationals. -/

/-- The value-row columns of run.py lines 100-102, in print order, each with
the decimal precision of its format string. -/
def benchmarkColumns : List (String × Nat) :=
  [("L2Q@5", 3), ("L2Q@15", 4), ("L2Q@30", 4),
   ("L2P@5", 3), ("L2P@15", 4), ("L2P@30", 4),
   ("NPSS@5", 4), ("NPSS@15", 5), ("NPSS@30", 5)]

/-- Build the value row for the given columns: look each key up in the
metrics mapping, failing with that key (Python `KeyError`) at the first
absent one; a successful row carries key, precision and value per cell. -/
def reportRowAux (metrics : List (String × ℚ)) :
    List (String × Nat) → Except String (List (String × Nat × ℚ))
  | [] => .ok []
  | col :: rest =>
    match getVal col.1 metrics with
    | none => .error col.1
    | some v =>
      match reportRowAux metrics rest with
      | .error e => .error e
      | .ok tl => .ok ((col.1, col.2, v) :: tl)

/-- The benchmark value row of run.py lines 100-102. -/
def reportRow (metrics : List (String × ℚ)) :
    Except String (List (String × Nat × ℚ)) :=
  reportRowAux metrics benchmarkColumns

theorem reportRowAux_ok_shape (m : List (String × ℚ)) :
    ∀ cols r, reportRowAux m cols = .ok r →
      r.map (fun e => (e.1, e.2.1)) = cols ∧ ∀ e ∈ r, getVal e.1 m = some e.2.2 := by
  intro cols
  induction cols with
  | nil =>
    intro r h
    rw [reportRowAux] at h
    cases h
    exact ⟨rfl, by intro e he; cases he⟩
  | cons col rest ih =>
    intro r h
    rw [reportRowAux] at h
    cases hm : getVal col.1 m with
    | none => rw [hm] at h; exact Except.noConfusion h
    | some v =>
      rw [hm] at h
      cases ha : reportRowAux m rest with
      | error e => rw [ha] at h; exact Except.noConfusion h
      | ok tl =>
        rw [ha] at h
        cases h
        obtain ⟨ihm, ihv⟩ := ih tl ha
        constructor
        · simp [ihm]
        · intro e he
          rcases List.mem_cons.mp he with rfl | he2
          · simpa using hm
          · exact ihv e he2

theorem reportRowAux_error_of_missing (m : List (String × ℚ)) :
    ∀ cols, (∃ k ∈ cols.map (fun c => c.1), getVal k m = none) →
      ∃ k2 ∈ cols.map (fun c => c.1),
        reportRowAux m cols = .error k2 ∧ getVal k2 m = none := by
  intro cols
  induction cols with
  | nil => rintro ⟨k, hk, _⟩; simp at hk
  | cons col rest ih =>
    rintro ⟨k, hk, hnone⟩
    cases hm : getVal col.1 m with
    | none =>
      refine ⟨col.1, by simp, ?_, hm⟩
      rw [reportRowAux, hm]
    | some v =>
      have hsplit : k = col.1 ∨ k ∈ rest.map (fun c => c.1) := by
        rw [List.map_cons] at hk
        exact List.mem_cons.mp hk
      have hkr : k ∈ rest.map (fun c => c.1) := by
        rcases hsplit with rfl | h2
        · rw [hm] at hnone; exact Option.noConfusion hnone
        · exact h2
      obtain ⟨k2, hk2, herr, hk2none⟩ := ih ⟨k, hkr, hnone⟩
      refine ⟨k2, ?_, ?_, hk2none⟩
      · rw [List.map_cons]; exact List.mem_cons.mpr (Or.inr hk2)
      · rw [reportRowAux, hm, herr]

theorem reportRowAux_ok_of_present (m : List (String × ℚ)) :
    ∀ cols, (∀ k ∈ cols.map (fun c => c.1), (getVal k m).isSome) →
      ∃ r, reportRowAux m cols = .ok r := by
  intro cols
  induction cols with
  | nil => intro _; exact ⟨[], rfl⟩
  | cons col rest ih =>
    intro hall
    have hcol : (getVal col.1 m).isSome :=
      hall col.1 (by rw [List.map_cons]; exact List.mem_cons.mpr (Or.inl rfl))
    cases hm : getVal col.1 m with
    | none => rw [hm] at hcol; cases hcol
    | some v =>
      obtain ⟨tl, htl⟩ := ih (fun k hk =>
        hall k (by rw [List.map_cons]; exact List.mem_cons.mpr (Or.inr hk)))
      exact ⟨(col.1, col.2, v) :: tl, by rw [reportRowAux, hm, htl]⟩

/-- C8: whenever the report step renders the value row, the cell for
`L2Q@5` is printed with 3 decimal places and the cell for `L2Q@15` with 4,
and each cell holds exactly the metric value returned by `evaluate()`
(run.py lines 100-102). -/
theorem C8_report_fixed_precision (m : List (String × ℚ))
    (r : List (String × Nat × ℚ)) (h : reportRow m = .ok r) :
    (∃ v, ("L2Q@5", 3, v) ∈ r ∧ getVal "L2Q@5" m = some v)
      ∧ ∃ v, ("L2Q@15", 4, v) ∈ r ∧ getVal "L2Q@15" m = some v := by
  obtain ⟨hmap, hval⟩ := reportRowAux_ok_shape m benchmarkColumns r h
  constructor
  · have h5 : ("L2Q@5", 3) ∈ r.map (fun e => (e.1, e.2.1)) := by
      rw [hmap]; decide
    obtain ⟨e, he, hpe⟩ := List.mem_map.mp h5
    have h1 : e.1 = "L2Q@5" := congrArg Prod.fst hpe
    have h2 : e.2.1 = 3 := congrArg Prod.snd hpe
    have heq : ("L2Q@5", 3, e.2.2) = e := by rw [← h1, ← h2]
    exact ⟨e.2.2, heq ▸ he, h1 ▸ hval e he⟩
  · have h15 : ("L2Q@15", 4) ∈ r.map (fun e => (e.1, e.2.1)) := by
      rw [hmap]; decide
    obtain ⟨e, he, hpe⟩ := List.mem_map.mp h15
    have h1 : e.1 = "L2Q@15" := congrArg Prod.fst hpe
    have h2 : e.2.1 = 4 := congrArg Prod.snd hpe
    have heq : ("L2Q@15", 4, e.2.2) = e := by rw [← h1, ← h2]
    exact ⟨e.2.2, heq ▸ he, h1 ▸ hval e he⟩

/-- A complete metrics mapping, with all nine benchmark keys. -/
def metricsComplete : List (String × ℚ) :=
  [("L2Q@5", 1), ("L2Q@15", 2), ("L2Q@30", 3),
   ("L2P@5", 4), ("L2P@15", 5), ("L2P@30", 6),
   ("NPSS@5", 7), ("NPSS@15", 8), ("NPSS@30", 9)]

/-- The row the report renders for `metricsComplete`. -/
def rowComplete : List (String × Nat × ℚ) :=
  [("L2Q@5", 3, 1), ("L2Q@15", 4, 2), ("L2Q@30", 4, 3),
   ("L2P@5", 3, 4), ("L2P@15", 4, 5), ("L2P@30", 4, 6),
   ("NPSS@5", 4, 7), ("NPSS@15", 5, 8), ("NPSS@30", 5, 9)]

/-- Witness for C8 at a concrete complete metrics mapping. -/
theorem C8_report_fixed_precision_witness :
    (∃ v, ("L2Q@5", 3, v) ∈ rowComplete ∧ getVal "L2Q@5" metricsComplete = some v)
      ∧ ∃ v, ("L2Q@15", 4, v) ∈ rowComplete
          ∧ getVal "L2Q@15" metricsComplete = some v :=
  C8_report_fixed_precision metricsComplete rowComplete rfl

/-- C10: the report step requires all nine benchmark metric keys.  If every
key is present the value row is rendered; if any key is absent the step
fails with a key-lookup error naming a missing benchmark key, and no value
row is produced (run.py lines 96-103). -/
theorem C10_report_requires_all_metrics (m : List (String × ℚ)) :
    ((∀ k ∈ benchmarkColumns.map (fun c => c.1), (getVal k m).isSome) →
        ∃ r, reportRow m = .ok r)
      ∧ ((∃ k ∈ benchmarkColumns.map (fun c => c.1), getVal k m = none) →
          ∃ k2 ∈ benchmarkColumns.map (fun c => c.1),
            reportRow m = .error k2 ∧ getVal k2 m = none) :=
  ⟨fun hall => reportRowAux_ok_of_present m benchmarkColumns hall,
   fun hmiss => reportRowAux_error_of_missing m benchmarkColumns hmiss⟩

/-- A metrics mapping missing the benchmark key `NPSS@30`. -/
def metricsMissingOne : List (String × ℚ) :=
  [("L2Q@5", 1), ("L2Q@15", 2), ("L2Q@30", 3),
   ("L2P@5", 4), ("L2P@15", 5), ("L2P@30", 6),
   ("NPSS@5", 7), ("NPSS@15", 8)]

/-- Witness for C10: a complete mapping renders a row, and a mapping
missing `NPSS@30` makes the report fail with a key-lookup error. -/
theorem C10_report_requires_all_metrics_witness :
    (∃ r, reportRow metricsComplete = .ok r)
      ∧ ∃ k2 ∈ benchmarkColumns.map (fun c => c.1),
          reportRow metricsMissingOne = .error k2
            ∧ getVal k2 metricsMissingOne = none :=
  ⟨(C10_report_requires_all_metrics metricsComplete).1 (by decide),
   (C10_report_requires_all_metrics metricsMissingOne).2
     ⟨"NPSS@30", by decide, by decide⟩⟩

/-! ## Grid expansion: cardinality and enumeration order (C2) -/

theorem insertByKey_perm (x : String × List String) :
    ∀ ys, List.Perm (insertByKey x ys) (x :: ys) := by
  intro ys
  induction ys with
  | nil => rfl
  | cons y ys ih =>
    rw [insertByKey]
    by_cases h : x.1 < y.1
    · rw [if_pos h]
    · rw [if_neg h]
      exact (ih.cons y).trans (List.Perm.swap x y ys)

theorem sortByKey_perm : ∀ xs, List.Perm (sortByKey xs) xs := by
  intro xs
  induction xs with
  | nil => rfl
  | cons x xs ih =>
    rw [sortByKey]
    exact (insertByKey_perm x (sortByKey xs)).trans (ih.cons x)

theorem insertByKey_sorted (x : String × List String) :
    ∀ ys, ys.Pairwise (fun a b => a.1 ≤ b.1) →
      (insertByKey x ys).Pairwise (fun a b => a.1 ≤ b.1) := by
  intro ys
  induction ys with
  | nil => intro _; exact List.pairwise_singleton _ _
  | cons y ys ih =>
    intro h
    obtain ⟨hy, hys⟩ := List.pairwise_cons.mp h
    rw [insertByKey]
    by_cases hlt : x.1 < y.1
    · rw [if_pos hlt]
      refine List.pairwise_cons.mpr ⟨?_, h⟩
      intro z hz
      rcases List.mem_cons.mp hz with rfl | hz2
      · exact le_of_lt hlt
      · exact le_trans (le_of_lt hlt) (hy z hz2)
    · rw [if_neg hlt]
      refine List.pairwise_cons.mpr ⟨?_, ih hys⟩
      intro z hz
      rcases List.mem_cons.mp ((insertByKey_perm x ys).mem_iff.mp hz) with rfl | hz2
      · exact le_of_not_lt hlt
      · exact hy z hz2

theorem sortByKey_sorted : ∀ xs, (sortByKey xs).Pairwise (fun a b => a.1 ≤ b.1) := by
  intro xs
  induction xs with
  | nil => exact List.Pairwise.nil
  | cons x xs ih => exact insertByKey_sorted x (sortByKey xs) ih

theorem cartProd_length : ∀ ls : List (List α),
    (cartProd ls).length = (ls.map List.length).prod := by
  intro ls
  induction ls with
  | nil => rfl
  | cons l ls ih =>
    rw [cartProd, List.length_flatMap]
    have hconst : (List.length ∘ fun x => (cartProd ls).map (x :: ·))
        = fun _ : α => (cartProd ls).length := by
      funext x; simp
    rw [hconst, List.map_const', List.sum_replicate, smul_eq_mul, ih,
      List.map_cons, List.prod_cons]

/-- Decode a tuple of value-list indices into the tuple of values at those
indices (`d` is a dummy default, never used on in-range indices). -/
def decodeIdx (d : α) (ls : List (List α)) (idx : List Nat) : List α :=
  List.zipWith (fun l i => l.getD i d) ls idx

/-- All tuples of value-list indices for lists of the given lengths, in the
order `itertools.product` enumerates them. -/
def indexTuples (ns : List Nat) : List (List Nat) :=
  cartProd (ns.map List.range)

theorem decodeIdx_cons (d : α) (l : List α) (ls : List (List α)) (i : Nat)
    (t : List Nat) :
    decodeIdx d (l :: ls) (i :: t) = l.getD i d :: decodeIdx d ls t := rfl

theorem map_getD_range (l : List α) (d : α) :
    (List.range l.length).map (fun i => l.getD i d) = l := by
  induction l with
  | nil => rfl
  | cons x xs ih =>
    rw [List.length_cons, List.range_succ_eq_map, List.map_cons, List.map_map]
    rw [List.getD_cons_zero]
    have hfun : ((fun i => (x :: xs).getD i d) ∘ Nat.succ) = fun i => xs.getD i d := by
      funext i
      simp [Function.comp, List.getD_cons_succ]
    rw [hfun, ih]

theorem cartProd_decode (d : α) : ∀ ls : List (List α),
    cartProd ls = (indexTuples (ls.map List.length)).map (decodeIdx d ls) := by
  intro ls
  induction ls with
  | nil => rfl
  | cons l ls ih =>
    rw [indexTuples] at ih ⊢
    conv_rhs => rw [List.map_cons, List.map_cons, cartProd, List.map_flatMap]
    conv_lhs =>
      rw [cartProd, show l = (List.range l.length).map (fun i => l.getD i d) from
        (map_getD_range l d).symm, List.flatMap_map]
    simp only [ih, List.map_map, Function.comp_def, decodeIdx_cons]

theorem cartProd_pairwise_lex : ∀ ls : List (List Nat),
    (∀ l ∈ ls, l.Pairwise (· < ·)) →
      (cartProd ls).Pairwise (List.Lex (· < ·)) := by
  intro ls
  induction ls with
  | nil => intro _; exact List.pairwise_singleton _ _
  | cons l ls ih =>
    intro h
    rw [cartProd, List.pairwise_flatMap]
    constructor
    · intro x _
      rw [List.pairwise_map]
      exact (ih (fun l2 hl2 => h l2 (List.mem_cons_of_mem _ hl2))).imp
        (fun hab => List.Lex.cons hab)
    · refine (h l (List.mem_cons_self _ _)).imp ?_
      intro a b hab p hp q hq
      obtain ⟨t1, _, rfl⟩ := List.mem_map.mp hp
      obtain ⟨t2, _, rfl⟩ := List.mem_map.mp hq
      exact List.Lex.rel hab

theorem overrideSets_length (ps : List (String × PVal)) :
    (overrideSets ps).length
      = ((normalizeParams ps).map (fun e => e.2.length)).prod := by
  rw [overrideSets, List.length_map, expandGrid, List.length_map, cartProd_length,
    gridVals, List.map_map, gridItems]
  exact List.Perm.prod_eq
    ((sortByKey_perm (normalizeParams ps)).map (fun e => e.2.length))

/-- C2: grid expansion over a parameter mapping with value-list lengths
n1..nk (after scalar normalization) produces exactly n1*...*nk override
sets; the enumeration is the lexicographically increasing sequence of
value-list index tuples over the key-sorted items (stable iteration order
over parameter names, `itertools.product` order over indices); and the
expander is a pure function of the mapping, so invoking it twice on the
same mapping yields the identical ordered sequence. -/
theorem C2_expansion_count_order_determinism (ps : List (String × PVal)) :
    (overrideSets ps).length = ((normalizeParams ps).map (fun e => e.2.length)).prod
      ∧ overrideSets ps
          = (cartProd (gridVals ps)).map
              (fun vals => buildParamOverrides (((gridItems ps).map (fun e => e.1)).zip vals))
      ∧ cartProd (gridVals ps)
          = (indexTuples ((gridVals ps).map List.length)).map (decodeIdx "" (gridVals ps))
      ∧ (indexTuples ((gridVals ps).map List.length)).Pairwise (List.Lex (· < ·))
      ∧ (gridItems ps).Pairwise (fun a b => a.1 ≤ b.1)
      ∧ ∀ qs : List (String × PVal), qs = ps → overrideSets qs = overrideSets ps := by
  refine ⟨overrideSets_length ps, ?_, cartProd_decode "" (gridVals ps), ?_, ?_, ?_⟩
  · rw [overrideSets, expandGrid, List.map_map]
    rfl
  · rw [indexTuples]
    apply cartProd_pairwise_lex
    intro l hl
    obtain ⟨n, _, rfl⟩ := List.mem_map.mp hl
    exact List.pairwise_lt_range n
  · rw [gridItems]
    exact sortByKey_sorted (normalizeParams ps)
  · intro qs h
    rw [h]

/-- The end-to-end scenario mapping of the spec:
`parameters: {lr: [0.001, 0.01], seed: 42}`. -/
def psLr : List (String × PVal) :=
  [("lr", PVal.vlist ["0.001", "0.01"]), ("seed", PVal.scalar "42")]

/-- Witness for C2 at the spec's end-to-end scenario mapping. -/
theorem C2_expansion_count_order_determinism_witness :
    (overrideSets psLr).length = ((normalizeParams psLr).map (fun e => e.2.length)).prod
      ∧ overrideSets psLr
          = (cartProd (gridVals psLr)).map
              (fun vals => buildParamOverrides (((gridItems psLr).map (fun e => e.1)).zip vals))
      ∧ cartProd (gridVals psLr)
          = (indexTuples ((gridVals psLr).map List.length)).map (decodeIdx "" (gridVals psLr))
      ∧ (indexTuples ((gridVals psLr).map List.length)).Pairwise (List.Lex (· < ·))
      ∧ (gridItems psLr).Pairwise (fun a b => a.1 ≤ b.1)
      ∧ ∀ qs : List (String × PVal), qs = psLr → overrideSets qs = overrideSets psLr :=
  C2_expansion_count_order_determinism psLr

/-! ## Config resolution and freezing (run.py lines 30-34)

`run` begins with `OmegaConf.to_container(cfg, resolve=True)`,
`OmegaConf.create` and `OmegaConf.set_struct(cfg, True)`.  OmegaConf is an
external collaborator; its behaviour is modelled from the spec's
ResolvedConfig invariant: resolution substitutes every interpolation
expression (failing on missing or cyclic references), the recreated tree
contains only concrete values, and struct mode makes reading or adding an
unknown key fail.  Nothing later in `run` unsets struct mode, and the
embedding is immutable, so the invariant holds for the remainder of the
run. -/

/-- A configuration value: a concrete string or an interpolation
expression referring to another key. -/
inductive CVal where
  | str : String → CVal
  | interp : String → CVal
deriving DecidableEq

/-- A configuration tree (flattened to dotted keys) with its struct flag. -/
structure OCfg where
  entries : List (String × CVal)
  structMode : Bool
deriving DecidableEq

/-- Modelled from the spec: resolve one value against the tree, following
interpolation references with fuel to reject cyclic chains; `none` on a
missing reference or a cycle. -/
def resolveVal (entries : List (String × CVal)) : Nat → CVal → Option String
  | _, .str s => some s
  | 0, .interp _ => none
  | fuel + 1, .interp p =>
    match getVal p entries with
    | none => none
    | some v => resolveVal entries fuel v

/-- Resolve every entry of a tree against the full tree. -/
def resolveEntries (entries : List (String × CVal)) :
    List (String × CVal) → Option (List (String × String))
  | [] => some []
  | e :: rest =>
    match resolveVal entries entries.length e.2 with
    | none => none
    | some s =>
      match resolveEntries entries rest with
      | none => none
      | some tl => some ((e.1, s) :: tl)

/-- Modelled from the spec: `OmegaConf.to_container(cfg, resolve=True)`
(run.py line 32) — the fully-interpolated plain container. -/
def toContainerResolve (c : OCfg) : Option (List (String × String)) :=
  resolveEntries c.entries c.entries

/-- `OmegaConf.create` on a plain container (run.py line 33): every value
is concrete, struct mode initially off. -/
def ocCreate (l : List (String × String)) : OCfg :=
  ⟨l.map (fun kv => (kv.1, CVal.str kv.2)), false⟩

/-- `OmegaConf.set_struct` (run.py line 34). -/
def setStruct (c : OCfg) (b : Bool) : OCfg := { c with structMode := b }

/-- The run-entry resolution step, run.py lines 32-34: resolve all
interpolation, recreate the tree, freeze it. -/
def resolveAndFreeze (c : OCfg) : Option OCfg :=
  (toContainerResolve c).map (fun l => setStruct (ocCreate l) true)

/-- No interpolation expression remains in the tree. -/
def noInterp (c : OCfg) : Bool :=
  c.entries.all (fun e => match e.2 with | .str _ => true | .interp _ => false)

/-- Modelled from the spec: reading a key — a present key yields its value;
a missing key fails in struct mode (`ConfigAttributeError`) and yields
nothing otherwise. -/
def readKey (c : OCfg) (k : String) : Except String (Option CVal) :=
  match getVal k c.entries with
  | some v => .ok (some v)
  | none => if c.structMode then .error k else .ok none

/-- Replace the value of an existing key. -/
def setEntry : List (String × CVal) → String → CVal → List (String × CVal)
  | [], _, _ => []
  | e :: rest, k, v => if e.1 = k then (k, v) :: rest else e :: setEntry rest k v

/-- Modelled from the spec: writing a key — an existing key is updated; a
new key is appended only outside struct mode, and fails in struct mode
(the frozen schema admits no new keys). -/
def addKey (c : OCfg) (k : String) (v : CVal) : Except String OCfg :=
  match getVal k c.entries with
  | some _ => .ok { c with entries := setEntry c.entries k v }
  | none =>
    if c.structMode then .error k
    else .ok { c with entries := c.entries ++ [(k, v)] }

/-- C6: after the run-entry resolution step (run.py lines 32-34) the
configuration tree is fully interpolated and frozen — no interpolation
expression remains, struct mode is on, reading any key not present in the
tree fails, and adding any new key fails.  The tree is never unfrozen
later in `run`, so the invariant holds for the remainder of the run. -/
theorem C6_resolved_config_frozen (c c2 : OCfg)
    (h : resolveAndFreeze c = some c2) :
    noInterp c2 = true
      ∧ c2.structMode = true
      ∧ (∀ k, getVal k c2.entries = none → readKey c2 k = .error k)
      ∧ (∀ k v, getVal k c2.entries = none → addKey c2 k v = .error k) := by
  cases ht : toContainerResolve c with
  | none => rw [resolveAndFreeze, ht] at h; exact Option.noConfusion h
  | some l =>
    rw [resolveAndFreeze, ht] at h
    simp at h
    subst h
    refine ⟨?_, rfl, ?_, ?_⟩
    · simp only [noInterp, ocCreate, setStruct, List.all_map, Function.comp_def,
        List.all_eq_true]
      intro e he
      obtain ⟨kv, _, rfl⟩ := List.mem_map.mp he
      rfl
    · intro k hk
      rw [readKey, hk]
      rfl
    · intro k v hk
      rw [addKey, hk]
      rfl

/-- A template with one interpolation (`model.data` refers to
`data.path`). -/
def cfgWithInterp : OCfg :=
  ⟨[("data.path", CVal.str "lafan"), ("model.data", CVal.interp "data.path")], false⟩

/-- The frozen result of resolving `cfgWithInterp`. -/
def cfgFrozen : OCfg :=
  ⟨[("data.path", CVal.str "lafan"), ("model.data", CVal.str "lafan")], true⟩

/-- Witness for C6: resolving the concrete template substitutes the
interpolation and freezes the tree. -/
theorem C6_resolved_config_frozen_witness :
    noInterp cfgFrozen = true
      ∧ cfgFrozen.structMode = true
      ∧ (∀ k, getVal k cfgFrozen.entries = none → readKey cfgFrozen k = .error k)
      ∧ (∀ k v, getVal k cfgFrozen.entries = none → addKey cfgFrozen k v = .error k) :=
  C6_resolved_config_frozen cfgWithInterp cfgFrozen (by decide)

end DeltaInterp
